import Mathlib

/-!
Verification of resume-project-import.js.

A shallow embedding of `src/main/resources/static/resume-project-import.js`, the
Gerrit plugin script that registers the project action `import.resume`.

The script is glue over the host's plugin API.  The embedding threads an explicit
host state (the input elements created so far, the registered actions, the dialog
on display, the remote calls awaiting completion, the log of host effects and the
inputs as each `popup` rendered them)
through the script's three functions.  JavaScript closures are defunctionalised:
each function value the script creates is a constructor carrying the variables it
captures, and a `run` function gives its body.
-/

namespace ResumeProjectImport

/-! ## Data model -/

/-- JavaScript values that occur as property values of the objects the script builds. -/
inductive Value where
  | undefined
  | bool (b : Bool)
  | str (s : String)
  deriving DecidableEq, Repr

/-- An object literal: its fields in source order. -/
abbrev Obj := List (String × Value)

/-- An `input` element, as far as the script touches it: the properties `type`,
`value` and `checked`. -/
structure Input where
  type : String
  value : String
  checked : Bool
  deriving DecidableEq, Repr

/-- Input elements are mutable objects: they live in a heap and are named by their
index in it. -/
abbrev Ref := Nat

/-- The action context `c` the host passes to an action callback.  The only data
property the script reads is `c.project`. -/
structure Ctx where
  project : String
  deriving DecidableEq, Repr

/-- The function passed as the second argument of `c.call` (source lines 25-31); it
captures `c`. -/
inductive CallCallback where
  | callback (c : Ctx)
  deriving DecidableEq, Repr

/-- The function stored under `onclick` in the options of `c.button` (source lines
22-32); it captures `c`, `u`, `p` and `f`. -/
inductive ClickHandler where
  | onclick (c : Ctx) (u p f : Ref)
  deriving DecidableEq, Repr

/-- The function passed to `self.onAction` (source lines 16-46). -/
inductive ActionCallback where
  | onResumeProjectImport
  deriving DecidableEq, Repr

/-- The element tree the script builds with the factory methods of the context. -/
inductive Element where
  | input (r : Ref)
  | button (label : String) (onclick : Option ClickHandler)
  | br
  | msg (text : String)
  | prependLabel (label : String) (child : Element)
  | label (child : Element) (text : String)
  | div (children : List Element)
  deriving Repr

/-- The effects on the host that an observer can see, in the order they happen. -/
inductive Effect where
  | onAction (type name : String) (callback : ActionCallback)
  | popup (c : Ctx) (content : Element)
  | call (c : Ctx) (payload : Obj) (callback : CallCallback)
  | hide (c : Ctx)
  | alert (text : String)
  | go (path : String)
  deriving Repr

/-- What the host's two input factories return: the element `c.textfield()` creates
and the element `c.checkbox()` creates.  The factories belong to the host, so they
are a parameter of the embedding. -/
structure Host where
  textfield : Input
  checkbox : Input
  deriving DecidableEq, Repr

/-- A remote call that was issued and whose completion callback has not run yet. -/
structure Pending where
  c : Ctx
  payload : Obj
  callback : CallCallback
  deriving DecidableEq, Repr

/-- The state of the host page.  Next to the log of effects, `presented` keeps, for each
call of `popup` in order, the inputs of the content as they were at that call: what the
host renders when it puts the dialog on display. -/
structure HostState where
  heap : List Input
  actions : List (String × String × ActionCallback)
  dialog : Option Element
  pending : List Pending
  trace : List Effect
  presented : List (List (Ref × Input))
  deriving Repr

/-- The page before the plugin script is loaded. -/
def HostState.empty : HostState :=
  { heap := [], actions := [], dialog := none, pending := [], trace := [], presented := [] }

abbrev HostM := StateM HostState

/-! ## Host interface -/

mutual
/-- The input elements of a tree, left to right. -/
def Element.inputs : Element → List Ref
  | .input r => [r]
  | .button _ _ => []
  | .br => []
  | .msg _ => []
  | .prependLabel _ child => child.inputs
  | .label child _ => child.inputs
  | .div children => Element.inputsOfList children
/-- The input elements of a list of trees, left to right. -/
def Element.inputsOfList : List Element → List Ref
  | [] => []
  | e :: es => e.inputs ++ Element.inputsOfList es
end

/-- The inputs of `content`, each with its state in `heap`. -/
def snapshot (heap : List Input) (content : Element) : List (Ref × Input) :=
  content.inputs.filterMap fun r => heap[r]?.map fun i => (r, i)

/-- Append one effect to the log. -/
def emit (e : Effect) : HostM Unit :=
  modify fun s => { s with trace := s.trace ++ [e] }

/-- Create a fresh input element holding `i` and return its reference. -/
def alloc (i : Input) : HostM Ref :=
  fun s => (s.heap.length, { s with heap := s.heap ++ [i] })

/-- Apply `g` to the element at `r`; a dangling reference is left alone. -/
def updateAt (heap : List Input) (r : Ref) (g : Input → Input) : List Input :=
  match heap[r]? with
  | some i => heap.set r (g i)
  | none => heap

/-- The assignment `r.type = t`. -/
def setType (r : Ref) (t : String) : HostM Unit :=
  modify fun s => { s with heap := updateAt s.heap r fun i => { i with type := t } }

/-- The property read `r.value`. -/
def getValue (r : Ref) : HostM Value :=
  fun s => (match s.heap[r]? with
    | some i => Value.str i.value
    | none => Value.undefined, s)

/-- The property read `r.checked`. -/
def getChecked (r : Ref) : HostM Value :=
  fun s => (match s.heap[r]? with
    | some i => Value.bool i.checked
    | none => Value.undefined, s)

/-- The factory `c.textfield()`. -/
def Ctx.textfield (_c : Ctx) (h : Host) : HostM Ref := alloc h.textfield

/-- The factory `c.checkbox()`. -/
def Ctx.checkbox (_c : Ctx) (h : Host) : HostM Ref := alloc h.checkbox

/-- The factory `c.button(label, options)`; `onclick` is the handler in the options. -/
def Ctx.button (_c : Ctx) (label : String) (onclick : Option ClickHandler) : Element :=
  Element.button label onclick

/-- The factory `c.div(...)`. -/
def Ctx.div (_c : Ctx) (children : List Element) : Element := Element.div children

/-- The factory `c.msg(text)`. -/
def Ctx.msg (_c : Ctx) (text : String) : Element := Element.msg text

/-- The factory `c.br()`. -/
def Ctx.br (_c : Ctx) : Element := Element.br

/-- The factory `c.prependLabel(label, child)`. -/
def Ctx.prependLabel (_c : Ctx) (label : String) (child : Element) : Element :=
  Element.prependLabel label child

/-- The factory `c.label(child, text)`. -/
def Ctx.label (_c : Ctx) (child : Element) (text : String) : Element :=
  Element.label child text

/-- The operation `c.popup(content)`: the host puts `content` on display, rendering its
inputs as they are at this call. -/
def Ctx.popup (c : Ctx) (content : Element) : HostM Unit := do
  modify fun s => { s with
    dialog := some content
    presented := s.presented ++ [snapshot s.heap content] }
  emit (Effect.popup c content)

/-- The operation `c.hide()`: the host takes the dialog off display. -/
def Ctx.hide (c : Ctx) : HostM Unit := do
  modify fun s => { s with dialog := none }
  emit (Effect.hide c)

/-- The operation `c.call(payload, callback)`: the host sends the request and keeps
the callback until the response arrives. -/
def Ctx.call (c : Ctx) (payload : Obj) (callback : CallCallback) : HostM Unit := do
  modify fun s => { s with pending := s.pending ++ [⟨c, payload, callback⟩] }
  emit (Effect.call c payload callback)

/-- The browser operation `window.alert(text)`. -/
def alert (text : String) : HostM Unit := emit (Effect.alert text)

/-- The operation `Gerrit.go(path)`. -/
def go (path : String) : HostM Unit := emit (Effect.go path)

/-- The operation `self.onAction(type, name, callback)`. -/
def onAction (type name : String) (callback : ActionCallback) : HostM Unit := do
  modify fun s => { s with actions := s.actions ++ [(type, name, callback)] }
  emit (Effect.onAction type name callback)

/-! ## The script -/

/-- Source lines 25-31: the completion callback `function(r) { ... }`. -/
def CallCallback.run : CallCallback → Obj → HostM Unit
  | .callback c, _r => do
    c.hide
    alert ("Import for project \"" ++ c.project ++ "\" was resumed.\"")
    go ("/admin/projects/" ++ c.project)

/-- Source lines 22-32: the click handler `function(){ c.call(...) }`. -/
def ClickHandler.run : ClickHandler → HostM Unit
  | .onclick c u p f => do
    let user ← getValue u
    let pass ← getValue p
    let force ← getChecked f
    c.call [("user", user), ("pass", pass), ("force", force)] (CallCallback.callback c)

/-- Source lines 16-46: `function onResumeProjectImport(c)`. -/
def onResumeProjectImport (h : Host) (c : Ctx) : HostM Unit := do
  let u ← c.textfield h
  let p ← c.textfield h
  setType p "password"
  let f ← c.checkbox h
  let b := c.button "Resume" (some (ClickHandler.onclick c u p f))
  c.popup (c.div [
    c.msg ("Resume import for project \"" ++ c.project ++ "\" ?"),
    c.br,
    c.prependLabel "User:" (Element.input u),
    c.br,
    c.prependLabel "Password:" (Element.input p),
    c.br,
    c.label (Element.input f) "Force Resume",
    c.br,
    c.br,
    b])

/-- Apply an action callback to a context. -/
def ActionCallback.run (h : Host) : ActionCallback → Ctx → HostM Unit
  | .onResumeProjectImport, c => ResumeProjectImport.onResumeProjectImport h c

/-- Source lines 15-48: the function passed to `Gerrit.install`, which the host
applies to the plugin object when it loads the script. -/
def install : HostM Unit :=
  onAction "project" "import.resume" ActionCallback.onResumeProjectImport

/-! ## Reading a dialog -/

mutual
/-- The buttons of a tree, left to right: the label and the click handler of each. -/
def Element.buttons : Element → List (String × Option ClickHandler)
  | .input _ => []
  | .button text onclick => [(text, onclick)]
  | .br => []
  | .msg _ => []
  | .prependLabel _ child => child.buttons
  | .label child _ => child.buttons
  | .div children => Element.buttonsOfList children
/-- The buttons of a list of trees, left to right. -/
def Element.buttonsOfList : List Element → List (String × Option ClickHandler)
  | [] => []
  | e :: es => e.buttons ++ Element.buttonsOfList es
end

mutual
/-- The texts of the message elements of a tree, left to right. -/
def Element.messages : Element → List String
  | .input _ => []
  | .button _ _ => []
  | .br => []
  | .msg text => [text]
  | .prependLabel _ child => child.messages
  | .label child _ => child.messages
  | .div children => Element.messagesOfList children
/-- The texts of the message elements of a list of trees, left to right. -/
def Element.messagesOfList : List Element → List String
  | [] => []
  | e :: es => e.messages ++ Element.messagesOfList es
end

mutual
/-- The labelled rows of a tree, left to right: each input that sits under a label,
with the text of that label. -/
def Element.rows : Element → List (String × Ref)
  | .input _ => []
  | .button _ _ => []
  | .br => []
  | .msg _ => []
  | .prependLabel text child => child.inputs.map fun r => (text, r)
  | .label child text => child.inputs.map fun r => (text, r)
  | .div children => Element.rowsOfList children
/-- The labelled rows of a list of trees, left to right. -/
def Element.rowsOfList : List Element → List (String × Ref)
  | [] => []
  | e :: es => e.rows ++ Element.rowsOfList es
end

/-- The text `part` occurs in `text`. -/
def Mentions (text part : String) : Prop :=
  ∃ before after : String, text = before ++ part ++ after

/-! ## The host's event loop

The page is single-threaded and event-driven: the host loads the script, fires a
registered action, lets the user edit an input or activate a button of the dialog on
display, and delivers or drops the response of a remote call.  Each event runs at
most one function of the script to completion. -/

/-- An edit of an input element by the user. -/
inductive Edit where
  | setValue (r : Ref) (v : String)
  | setChecked (r : Ref) (b : Bool)
  deriving DecidableEq, Repr

/-- The events of the page. -/
inductive Event where
  | load
  | action (type name : String) (c : Ctx)
  | edit (e : Edit)
  | click (label : String)
  | complete (i : Nat) (r : Obj)
  | fail (i : Nat)
  deriving DecidableEq, Repr

/-- The user edits an input element. -/
def Edit.apply (s : HostState) : Edit → HostState
  | .setValue r v => { s with heap := updateAt s.heap r fun i => { i with value := v } }
  | .setChecked r b => { s with heap := updateAt s.heap r fun i => { i with checked := b } }

/-- One turn of the event loop.
* `load`: the host loads the script and applies the installed function.
* `action type name c`: the host fires the action registered under the key with context `c`.
* `edit e`: the user edits an input element.
* `click label`: the user activates the button with that label in the dialog on display.
* `complete i r`: the `i`-th awaited call succeeds with response `r`; its callback runs.
* `fail i`: the `i`-th awaited call fails; the host drops it and its callback never runs. -/
def step (h : Host) (s : HostState) : Event → HostState
  | .load => (install.run s).2
  | .action type name c =>
    match s.actions.find? fun a => a.1 == type && a.2.1 == name with
    | some a => ((a.2.2.run h c).run s).2
    | none => s
  | .edit e => e.apply s
  | .click label =>
    match s.dialog with
    | some content =>
      match content.buttons.find? fun b => b.1 == label with
      | some (_, some k) => (k.run.run s).2
      | _ => s
    | none => s
  | .complete i r =>
    match s.pending[i]? with
    | some p => ((p.callback.run r).run { s with pending := s.pending.eraseIdx i }).2
    | none => s
  | .fail i => { s with pending := s.pending.eraseIdx i }

/-- Run the event loop over a sequence of events. -/
def run (h : Host) (s : HostState) (es : List Event) : HostState :=
  es.foldl (step h) s

/-- The page after the host applied `onResumeProjectImport` to the context `c`. -/
def opened (h : Host) (c : Ctx) (s : HostState) : HostState :=
  ((onResumeProjectImport h c).run s).2

/-- The page after the dialog was opened, the user made the edits `es` and then
activated the button labelled Resume. -/
def submitted (h : Host) (c : Ctx) (s : HostState) (es : List Edit) : HostState :=
  step h (run h (opened h c s) (es.map Event.edit)) (Event.click "Resume")

/-- The effect is an outbound call. -/
def Effect.isCall : Effect → Bool
  | .call _ _ _ => true
  | _ => false

/-- The effect is one of the three the completion callback performs. -/
def Effect.isPostSuccess : Effect → Bool
  | .hide _ => true
  | .alert _ => true
  | .go _ => true
  | _ => false

/-- The event is an activation of the button labelled Resume. -/
def Event.isResume : Event → Bool
  | .click text => text == "Resume"
  | _ => false

/-- The event is a successful completion of a call. -/
def Event.isComplete : Event → Bool
  | .complete _ _ => true
  | _ => false

/-- The element tree of source lines 33-45, as built when the three inputs were
allocated at `n`, `n + 1` and `n + 2`. -/
def resumeDialog (c : Ctx) (n : Nat) : Element :=
  Element.div [
    Element.msg ("Resume import for project \"" ++ c.project ++ "\" ?"),
    Element.br,
    Element.prependLabel "User:" (Element.input n),
    Element.br,
    Element.prependLabel "Password:" (Element.input (n + 1)),
    Element.br,
    Element.label (Element.input (n + 2)) "Force Resume",
    Element.br,
    Element.br,
    Element.button "Resume" (some (ClickHandler.onclick c n (n + 1) (n + 2)))]

/-- A host whose factories return what `document.createElement` gives: a text input
and a checkbox, both empty and unchecked. -/
def domHost : Host :=
  { textfield := { type := "text", value := "", checked := false },
    checkbox := { type := "checkbox", value := "", checked := false } }

/-! ## What each function of the script does to the page -/

theorem updateAt_append_two (l : List Input) (a b : Input) (g : Input → Input) :
    updateAt (l ++ [a, b]) (l.length + 1) g = l ++ [a, g b] := by
  have h1 : (l ++ [a, b])[l.length + 1]? = some b := by
    rw [List.getElem?_append_right (by omega)]
    simp
  simp [updateAt, h1, List.set_append]

theorem snapshot_resume (l : List Input) (a b d : Input) (c : Ctx) :
    snapshot (l ++ [a, b, d]) (resumeDialog c l.length) =
      [(l.length, a), (l.length + 1, b), (l.length + 2, d)] := by
  have k0 : (l ++ [a, b, d])[l.length]? = some a := by
    rw [List.getElem?_append_right (by omega)]
    simp
  have k1 : (l ++ [a, b, d])[l.length + 1]? = some b := by
    rw [List.getElem?_append_right (by omega)]
    simp
  have k2 : (l ++ [a, b, d])[l.length + 2]? = some d := by
    rw [List.getElem?_append_right (by omega)]
    simp
  simp [snapshot, resumeDialog, Element.inputs, Element.inputsOfList, k0, k1, k2]

theorem opened_eq (h : Host) (c : Ctx) (s : HostState) :
    opened h c s =
      { heap := s.heap ++ [h.textfield, { h.textfield with type := "password" }, h.checkbox]
        actions := s.actions
        dialog := some (resumeDialog c s.heap.length)
        pending := s.pending
        trace := s.trace ++ [Effect.popup c (resumeDialog c s.heap.length)]
        presented := s.presented ++ [[(s.heap.length, h.textfield),
          (s.heap.length + 1, { h.textfield with type := "password" }),
          (s.heap.length + 2, h.checkbox)]] } := by
  have key := updateAt_append_two s.heap h.textfield h.textfield
    (fun i => { i with type := "password" })
  have e1 : opened h c s =
      { heap := s.heap ++ [h.textfield, { h.textfield with type := "password" }, h.checkbox]
        actions := s.actions
        dialog := some (resumeDialog c s.heap.length)
        pending := s.pending
        trace := s.trace ++ [Effect.popup c (resumeDialog c s.heap.length)]
        presented := s.presented ++ [snapshot (s.heap ++ [h.textfield,
          { h.textfield with type := "password" }, h.checkbox])
          (resumeDialog c s.heap.length)] } := by
    simp only [opened, onResumeProjectImport, Ctx.textfield, Ctx.checkbox, alloc, setType,
      Ctx.popup, emit, StateT.run, bind, StateT.bind, modify, modifyGet,
      MonadStateOf.modifyGet, StateT.modifyGet, pure, StateT.pure, Ctx.button, Ctx.div,
      Ctx.msg, Ctx.br, Ctx.prependLabel, Ctx.label, List.append_assoc, List.length_append,
      List.length_cons, List.length_nil, List.cons_append, List.nil_append,
      List.singleton_append, resumeDialog, key]
  rw [e1, snapshot_resume]

theorem onclick_run (c : Ctx) (u p f : Ref) (s : HostState) :
    ((ClickHandler.onclick c u p f).run.run s).2 =
      { s with
        pending := s.pending ++ [⟨c, [("user", (getValue u s).1), ("pass", (getValue p s).1),
          ("force", (getChecked f s).1)], CallCallback.callback c⟩]
        trace := s.trace ++ [Effect.call c [("user", (getValue u s).1),
          ("pass", (getValue p s).1), ("force", (getChecked f s).1)]
          (CallCallback.callback c)] } := rfl

theorem callback_run (c : Ctx) (r : Obj) (s : HostState) :
    (((CallCallback.callback c).run r).run s).2 =
      { s with
        dialog := none
        trace := s.trace ++ [Effect.hide c,
          Effect.alert ("Import for project \"" ++ c.project ++ "\" was resumed.\""),
          Effect.go ("/admin/projects/" ++ c.project)] } := by
  simp [CallCallback.run, Ctx.hide, alert, go, emit, StateT.run, bind, StateT.bind, modify,
    modifyGet, MonadStateOf.modifyGet, StateT.modifyGet, pure, StateT.pure]

theorem install_run (s : HostState) :
    (install.run s).2 =
      { s with
        actions := s.actions ++
          [("project", "import.resume", ActionCallback.onResumeProjectImport)]
        trace := s.trace ++
          [Effect.onAction "project" "import.resume" ActionCallback.onResumeProjectImport] } :=
  rfl

/-! ## Edits -/

theorem updateAt_length (l : List Input) (r : Ref) (g : Input → Input) :
    (updateAt l r g).length = l.length := by
  unfold updateAt
  split <;> simp

theorem updateAt_self (l : List Input) (r : Ref) (g : Input → Input) (i : Input)
    (hi : l[r]? = some i) : (updateAt l r g)[r]? = some (g i) := by
  have hr : r < l.length := by
    rcases Nat.lt_or_ge r l.length with hlt | hge
    · exact hlt
    · rw [List.getElem?_eq_none hge] at hi
      cases hi
  simp [updateAt, hi, List.getElem?_set_self, hr]

theorem updateAt_other (l : List Input) (r k : Nat) (g : Input → Input) (hk : r ≠ k) :
    (updateAt l r g)[k]? = l[k]? := by
  unfold updateAt
  split
  · exact List.getElem?_set_ne hk
  · rfl

theorem edit_dialog (e : Edit) (s : HostState) : (e.apply s).dialog = s.dialog := by
  cases e <;> rfl

theorem edit_pending (e : Edit) (s : HostState) : (e.apply s).pending = s.pending := by
  cases e <;> rfl

theorem edit_trace (e : Edit) (s : HostState) : (e.apply s).trace = s.trace := by
  cases e <;> rfl

theorem edit_length (e : Edit) (s : HostState) : (e.apply s).heap.length = s.heap.length := by
  cases e <;> simp [Edit.apply, updateAt_length]

theorem run_edits_dialog (h : Host) (es : List Edit) (s : HostState) :
    (run h s (es.map Event.edit)).dialog = s.dialog := by
  induction es generalizing s with
  | nil => rfl
  | cons e es ih =>
    have := ih (e.apply s)
    simpa [run, step, edit_dialog] using this

theorem run_edits_pending (h : Host) (es : List Edit) (s : HostState) :
    (run h s (es.map Event.edit)).pending = s.pending := by
  induction es generalizing s with
  | nil => rfl
  | cons e es ih =>
    have := ih (e.apply s)
    simpa [run, step, edit_pending] using this

theorem run_edits_trace (h : Host) (es : List Edit) (s : HostState) :
    (run h s (es.map Event.edit)).trace = s.trace := by
  induction es generalizing s with
  | nil => rfl
  | cons e es ih =>
    have := ih (e.apply s)
    simpa [run, step, edit_trace] using this

theorem run_edits_length (h : Host) (es : List Edit) (s : HostState) :
    (run h s (es.map Event.edit)).heap.length = s.heap.length := by
  induction es generalizing s with
  | nil => rfl
  | cons e es ih =>
    have := ih (e.apply s)
    simpa [run, step, edit_length] using this

theorem run_append (h : Host) (s : HostState) (es fs : List Event) :
    run h s (es ++ fs) = run h (run h s es) fs := by
  simp [run, List.foldl_append]

theorem getElem?_of_lt (l : List Input) (k : Nat) (hk : k < l.length) :
    ∃ i, l[k]? = some i :=
  ⟨l[k], List.getElem?_eq_getElem hk⟩

/-- Activating Resume in the dialog of source lines 33-45 runs the click handler, which
reads the three inputs as they are at that moment. -/
theorem click_resume (h : Host) (c : Ctx) (n : Nat) (t : HostState) (u p f : Input)
    (hd : t.dialog = some (resumeDialog c n))
    (hu : t.heap[n]? = some u) (hp : t.heap[n + 1]? = some p) (hf : t.heap[n + 2]? = some f) :
    step h t (Event.click "Resume") =
      { t with
        pending := t.pending ++ [⟨c, [("user", Value.str u.value), ("pass", Value.str p.value),
          ("force", Value.bool f.checked)], CallCallback.callback c⟩]
        trace := t.trace ++ [Effect.call c [("user", Value.str u.value),
          ("pass", Value.str p.value), ("force", Value.bool f.checked)]
          (CallCallback.callback c)] } := by
  simp [step, hd, resumeDialog, Element.buttons, Element.buttonsOfList, onclick_run,
    getValue, getChecked, hu, hp, hf]

theorem opened_edits_lookup (h : Host) (c : Ctx) (s : HostState) (es : List Edit) (k : Nat)
    (hk : k < 3) :
    ∃ i, (run h (opened h c s) (es.map Event.edit)).heap[s.heap.length + k]? = some i := by
  apply getElem?_of_lt
  rw [run_edits_length, opened_eq]
  simp
  omega

theorem three_edits (h : Host) (t : HostState) (n : Nat) (uv pv : String) (fb : Bool)
    (hn : n + 3 ≤ t.heap.length) :
    ∃ u p f : Input,
      (run h t [Event.edit (Edit.setValue n uv), Event.edit (Edit.setValue (n + 1) pv),
        Event.edit (Edit.setChecked (n + 2) fb)]).heap[n]? = some u ∧ u.value = uv ∧
      (run h t [Event.edit (Edit.setValue n uv), Event.edit (Edit.setValue (n + 1) pv),
        Event.edit (Edit.setChecked (n + 2) fb)]).heap[n + 1]? = some p ∧ p.value = pv ∧
      (run h t [Event.edit (Edit.setValue n uv), Event.edit (Edit.setValue (n + 1) pv),
        Event.edit (Edit.setChecked (n + 2) fb)]).heap[n + 2]? = some f ∧ f.checked = fb := by
  obtain ⟨u0, hu0⟩ := getElem?_of_lt t.heap n (by omega)
  obtain ⟨p0, hp0⟩ := getElem?_of_lt t.heap (n + 1) (by omega)
  obtain ⟨f0, hf0⟩ := getElem?_of_lt t.heap (n + 2) (by omega)
  have a1 := updateAt_self t.heap n (fun i => { i with value := uv }) u0 hu0
  have a2 : (updateAt t.heap n fun i => { i with value := uv })[n + 1]? = some p0 := by
    rw [updateAt_other _ n (n + 1) _ (by omega)]; exact hp0
  have a3 : (updateAt t.heap n fun i => { i with value := uv })[n + 2]? = some f0 := by
    rw [updateAt_other _ n (n + 2) _ (by omega)]; exact hf0
  have b2 := updateAt_self _ (n + 1) (fun i => { i with value := pv }) p0 a2
  have b1 : (updateAt (updateAt t.heap n fun i => { i with value := uv }) (n + 1)
      fun i => { i with value := pv })[n]? = some { u0 with value := uv } := by
    rw [updateAt_other _ (n + 1) n _ (by omega)]; exact a1
  have b3 : (updateAt (updateAt t.heap n fun i => { i with value := uv }) (n + 1)
      fun i => { i with value := pv })[n + 2]? = some f0 := by
    rw [updateAt_other _ (n + 1) (n + 2) _ (by omega)]; exact a3
  have c3 := updateAt_self _ (n + 2) (fun i => { i with checked := fb }) f0 b3
  refine ⟨{ u0 with value := uv }, { p0 with value := pv }, { f0 with checked := fb },
    ?_, rfl, ?_, rfl, c3, rfl⟩
  · change (updateAt (updateAt (updateAt t.heap n fun i => { i with value := uv }) (n + 1)
      fun i => { i with value := pv }) (n + 2) fun i => { i with checked := fb })[n]? = _
    rw [updateAt_other _ (n + 2) n _ (by omega)]; exact b1
  · change (updateAt (updateAt (updateAt t.heap n fun i => { i with value := uv }) (n + 1)
      fun i => { i with value := pv }) (n + 2) fun i => { i with checked := fb })[n + 1]? = _
    rw [updateAt_other _ (n + 2) (n + 1) _ (by omega)]; exact b2

theorem submitted_eq (h : Host) (c : Ctx) (s : HostState) (es : List Edit) :
    ∃ payload : Obj,
      submitted h c s es =
        { run h (opened h c s) (es.map Event.edit) with
          pending := s.pending ++ [⟨c, payload, CallCallback.callback c⟩]
          trace := (opened h c s).trace ++ [Effect.call c payload (CallCallback.callback c)] } := by
  obtain ⟨u, hu⟩ := opened_edits_lookup h c s es 0 (by omega)
  obtain ⟨p, hp⟩ := opened_edits_lookup h c s es 1 (by omega)
  obtain ⟨f, hf⟩ := opened_edits_lookup h c s es 2 (by omega)
  have hd : (run h (opened h c s) (es.map Event.edit)).dialog =
      some (resumeDialog c s.heap.length) := by
    rw [run_edits_dialog, opened_eq]
  refine ⟨[("user", Value.str u.value), ("pass", Value.str p.value),
    ("force", Value.bool f.checked)], ?_⟩
  rw [submitted, click_resume h c s.heap.length _ u p f hd hu hp hf, run_edits_pending,
    run_edits_trace]
  simp [opened_eq]

theorem complete_submitted (h : Host) (c : Ctx) (s : HostState) (es : List Edit) (r : Obj) :
    (step h (submitted h c s es) (Event.complete s.pending.length r)).trace =
      (submitted h c s es).trace ++ [Effect.hide c,
        Effect.alert ("Import for project \"" ++ c.project ++ "\" was resumed.\""),
        Effect.go ("/admin/projects/" ++ c.project)] := by
  obtain ⟨payload, hs⟩ := submitted_eq h c s es
  rw [hs]
  simp [step, callback_run]

/-! ## The event loop -/

theorem step_action (h : Host) (s : HostState) (type name : String) (c : Ctx) :
    step h s (Event.action type name c) = s ∨
      step h s (Event.action type name c) = opened h c s := by
  simp only [step]
  split
  · rename_i a _
    obtain ⟨t, n, k⟩ := a
    cases k
    exact Or.inr rfl
  · exact Or.inl rfl

theorem step_click (h : Host) (s : HostState) (text : String) :
    step h s (Event.click text) = s ∨
      ∃ k : ClickHandler, step h s (Event.click text) = (k.run.run s).2 := by
  simp only [step]
  split
  · split
    · rename_i k _
      exact Or.inr ⟨k, rfl⟩
    · exact Or.inl rfl
  · exact Or.inl rfl

theorem step_complete (h : Host) (s : HostState) (i : Nat) (r : Obj) :
    step h s (Event.complete i r) = s ∨
      ∃ c : Ctx, step h s (Event.complete i r) =
        (((CallCallback.callback c).run r).run { s with pending := s.pending.eraseIdx i }).2 := by
  simp only [step]
  split
  · rename_i p _
    obtain ⟨c, payload, k⟩ := p
    cases k
    exact Or.inr ⟨_, rfl⟩
  · exact Or.inl rfl

/-- Every dialog the script puts on display is the one of source lines 33-45. -/
theorem step_dialog (h : Host) (s : HostState) (e : Event)
    (hs : s.dialog = none ∨ ∃ c n, s.dialog = some (resumeDialog c n)) :
    (step h s e).dialog = none ∨ ∃ c n, (step h s e).dialog = some (resumeDialog c n) := by
  cases e with
  | load => exact hs
  | action type name c =>
    rcases step_action h s type name c with he | he
    · rw [he]; exact hs
    · rw [he, opened_eq]; exact Or.inr ⟨_, _, rfl⟩
  | edit e => rw [show step h s (Event.edit e) = e.apply s from rfl, edit_dialog]; exact hs
  | click text =>
    rcases step_click h s text with he | ⟨k, he⟩
    · rw [he]; exact hs
    · cases k
      rw [he, onclick_run]; exact hs
  | complete i r =>
    rcases step_complete h s i r with he | ⟨c, he⟩
    · rw [he]; exact hs
    · rw [he, callback_run]; exact Or.inl rfl
  | fail i => exact hs

/-- A turn of the event loop issues a call only when it is an activation of Resume, and
then only one. -/
theorem step_calls (h : Host) (s : HostState) (e : Event)
    (hs : s.dialog = none ∨ ∃ c n, s.dialog = some (resumeDialog c n)) :
    (step h s e).trace.countP Effect.isCall ≤
      s.trace.countP Effect.isCall + (if e.isResume then 1 else 0) := by
  cases e with
  | load => simp [step, install_run, Effect.isCall]
  | action type name c =>
    rcases step_action h s type name c with he | he
    · rw [he]; omega
    · rw [he, opened_eq]; simp [Effect.isCall]
  | edit e => rw [show step h s (Event.edit e) = e.apply s from rfl, edit_trace]; omega
  | click text =>
    rcases hs with hd | ⟨c, n, hd⟩
    · simp [step, hd]
    · by_cases ht : text = "Resume"
      · subst ht
        simp [step, hd, resumeDialog, Element.buttons, Element.buttonsOfList, onclick_run,
          Effect.isCall, Event.isResume]
      · have hne : ¬ ("Resume" = text) := fun hh => ht hh.symm
        simp [step, hd, resumeDialog, Element.buttons, Element.buttonsOfList, hne]
  | complete i r =>
    rcases step_complete h s i r with he | ⟨c, he⟩
    · rw [he]; omega
    · rw [he, callback_run]; simp [Effect.isCall]
  | fail i => simp [step]

theorem run_calls (h : Host) (es : List Event) (s : HostState)
    (hs : s.dialog = none ∨ ∃ c n, s.dialog = some (resumeDialog c n)) :
    (run h s es).trace.countP Effect.isCall ≤
      s.trace.countP Effect.isCall + es.countP Event.isResume := by
  induction es generalizing s with
  | nil => simp [run]
  | cons e es ih =>
    have h1 := ih (step h s e) (step_dialog h s e hs)
    have h2 := step_calls h s e hs
    have h3 : run h s (e :: es) = run h (step h s e) es := rfl
    rw [h3, List.countP_cons]
    omega

/-- A turn of the event loop performs the three effects of the completion callback only
when it is a successful completion. -/
theorem step_post (h : Host) (s : HostState) (e : Event) :
    (step h s e).trace.countP Effect.isPostSuccess ≤
      s.trace.countP Effect.isPostSuccess + (if e.isComplete then 3 else 0) := by
  cases e with
  | load => simp [step, install_run, Effect.isPostSuccess]
  | action type name c =>
    rcases step_action h s type name c with he | he
    · rw [he]; omega
    · rw [he, opened_eq]; simp [Effect.isPostSuccess]
  | edit e => rw [show step h s (Event.edit e) = e.apply s from rfl, edit_trace]; omega
  | click text =>
    rcases step_click h s text with he | ⟨k, he⟩
    · rw [he]; omega
    · cases k
      rw [he, onclick_run]; simp [Effect.isPostSuccess]
  | complete i r =>
    rcases step_complete h s i r with he | ⟨c, he⟩
    · rw [he]; omega
    · rw [he, callback_run]; simp [Effect.isPostSuccess, Event.isComplete]
  | fail i => simp [step]

theorem run_post (h : Host) (es : List Event) (s : HostState) :
    (run h s es).trace.countP Effect.isPostSuccess ≤
      s.trace.countP Effect.isPostSuccess + 3 * es.countP Event.isComplete := by
  induction es generalizing s with
  | nil => simp [run]
  | cons e es ih =>
    have h1 := ih (step h s e)
    have h2 := step_post h s e
    have h3 : run h s (e :: es) = run h (step h s e) es := rfl
    rw [h3, List.countP_cons]
    by_cases hc : e.isComplete = true
    · rw [if_pos hc] at h2 ⊢
      omega
    · rw [if_neg hc] at h2 ⊢
      omega

/-! ## The inputs of an open dialog -/

theorem opened_heap (h : Host) (c : Ctx) (s : HostState) :
    (opened h c s).heap[s.heap.length]? = some h.textfield ∧
    (opened h c s).heap[s.heap.length + 1]? = some { h.textfield with type := "password" } ∧
    (opened h c s).heap[s.heap.length + 2]? = some h.checkbox := by
  rw [opened_eq]
  refine ⟨?_, ?_, ?_⟩
  · show (s.heap ++ _)[s.heap.length]? = _
    rw [List.getElem?_append_right (by omega)]
    simp
  · show (s.heap ++ _)[s.heap.length + 1]? = _
    rw [List.getElem?_append_right (by omega)]
    simp
  · show (s.heap ++ _)[s.heap.length + 2]? = _
    rw [List.getElem?_append_right (by omega)]
    simp

theorem lt_of_getElem? (l : List Input) (k : Nat) (i : Input) (hi : l[k]? = some i) :
    k < l.length := by
  rcases Nat.lt_or_ge k l.length with hlt | hge
  · exact hlt
  · rw [List.getElem?_eq_none hge] at hi
    cases hi

theorem setValue_checked (t : HostState) (r : Ref) (v : String) (k : Nat) (i : Input)
    (hi : t.heap[k]? = some i) :
    ∃ j, ((Edit.setValue r v).apply t).heap[k]? = some j ∧ j.checked = i.checked := by
  by_cases hr : r = k
  · subst hr
    exact ⟨_, updateAt_self t.heap r _ i hi, rfl⟩
  · refine ⟨i, ?_, rfl⟩
    show (updateAt t.heap r _)[k]? = _
    rw [updateAt_other _ r k _ hr]
    exact hi

theorem run_values_checked (h : Host) (vs : List (Ref × String)) (t : HostState) (k : Nat)
    (i : Input) (hi : t.heap[k]? = some i) :
    ∃ j, (run h t ((vs.map fun v => Edit.setValue v.1 v.2).map Event.edit)).heap[k]? = some j ∧
      j.checked = i.checked := by
  induction vs generalizing t i with
  | nil => exact ⟨i, hi, rfl⟩
  | cons v vs ih =>
    obtain ⟨j, hj, hjc⟩ := setValue_checked t v.1 v.2 k i hi
    obtain ⟨j2, hj2, hjc2⟩ := ih ((Edit.setValue v.1 v.2).apply t) j hj
    exact ⟨j2, hj2, hjc2.trans hjc⟩

theorem edit_type (t : HostState) (e : Edit) (k : Nat) (i : Input)
    (hi : t.heap[k]? = some i) :
    ∃ j, (e.apply t).heap[k]? = some j ∧ j.type = i.type := by
  cases e with
  | setValue r v =>
    by_cases hr : r = k
    · subst hr
      exact ⟨_, updateAt_self t.heap r _ i hi, rfl⟩
    · refine ⟨i, ?_, rfl⟩
      show (updateAt t.heap r _)[k]? = _
      rw [updateAt_other _ r k _ hr]
      exact hi
  | setChecked r b =>
    by_cases hr : r = k
    · subst hr
      exact ⟨_, updateAt_self t.heap r _ i hi, rfl⟩
    · refine ⟨i, ?_, rfl⟩
      show (updateAt t.heap r _)[k]? = _
      rw [updateAt_other _ r k _ hr]
      exact hi

/-- No turn of the event loop changes the type of an input that exists. -/
theorem step_type (h : Host) (t : HostState) (e : Event) (k : Nat) (i : Input)
    (hi : t.heap[k]? = some i) :
    ∃ j, (step h t e).heap[k]? = some j ∧ j.type = i.type := by
  cases e with
  | load => exact ⟨i, hi, rfl⟩
  | action type name c =>
    rcases step_action h t type name c with he | he
    · rw [he]; exact ⟨i, hi, rfl⟩
    · refine ⟨i, ?_, rfl⟩
      rw [he, opened_eq]
      show (t.heap ++ _)[k]? = _
      rw [List.getElem?_append_left (lt_of_getElem? _ _ _ hi)]
      exact hi
  | edit e => exact edit_type t e k i hi
  | click text =>
    rcases step_click h t text with he | ⟨q, he⟩
    · rw [he]; exact ⟨i, hi, rfl⟩
    · cases q
      rw [he, onclick_run]; exact ⟨i, hi, rfl⟩
  | complete n r =>
    rcases step_complete h t n r with he | ⟨c, he⟩
    · rw [he]; exact ⟨i, hi, rfl⟩
    · rw [he, callback_run]; exact ⟨i, hi, rfl⟩
  | fail n => exact ⟨i, hi, rfl⟩

theorem run_type (h : Host) (es : List Event) (t : HostState) (k : Nat) (i : Input)
    (hi : t.heap[k]? = some i) :
    ∃ j, (run h t es).heap[k]? = some j ∧ j.type = i.type := by
  induction es generalizing t i with
  | nil => exact ⟨i, hi, rfl⟩
  | cons e es ih =>
    obtain ⟨j, hj, hjt⟩ := step_type h t e k i hi
    obtain ⟨j2, hj2, hjt2⟩ := ih (step h t e) j hj
    exact ⟨j2, hj2, hjt2.trans hjt⟩

/-- Activating Resume `k` times while the dialog is open issues `k` calls. -/
theorem run_clicks (h : Host) (c : Ctx) (n k : Nat) (t : HostState) (u p f : Input)
    (hd : t.dialog = some (resumeDialog c n))
    (hu : t.heap[n]? = some u) (hp : t.heap[n + 1]? = some p) (hf : t.heap[n + 2]? = some f) :
    run h t (List.replicate k (Event.click "Resume")) =
      { t with
        pending := t.pending ++ List.replicate k ⟨c, [("user", Value.str u.value),
          ("pass", Value.str p.value), ("force", Value.bool f.checked)],
          CallCallback.callback c⟩
        trace := t.trace ++ List.replicate k (Effect.call c [("user", Value.str u.value),
          ("pass", Value.str p.value), ("force", Value.bool f.checked)]
          (CallCallback.callback c)) } := by
  induction k generalizing t with
  | zero => simp [run]
  | succ k ih =>
    have h3 : run h t (List.replicate (k + 1) (Event.click "Resume")) =
        run h (step h t (Event.click "Resume")) (List.replicate k (Event.click "Resume")) := rfl
    rw [h3, click_resume h c n t u p f hd hu hp hf]
    rw [ih _ (by exact hd) (by exact hu) (by exact hp) (by exact hf)]
    simp [List.replicate_succ]

/-! ## The claims -/

/-- C1: one activation of the Resume button issues exactly one call of the host's
remote-call operation.  Whatever edits the user made since the dialog was opened, the
log grows by the single effect `call`, whose payload has exactly the fields `user`,
`pass` and `force`, holding the value of the username input, the value of the password
input and the checked state of the checkbox as they are when the button is activated;
in particular after the user set them to `uv`, `pv` and `fb`, the payload carries
`uv`, `pv` and `fb`.  For project foo/bar with alice, secret and true the payload is
user alice, pass secret, force true. -/
theorem resume_click_issues_one_call (h : Host) (c : Ctx) (s : HostState) (es : List Edit)
    (uv pv : String) (fb : Bool) :
    (∃ u p f : Input,
      (run h (opened h c s) (es.map Event.edit)).heap[s.heap.length]? = some u ∧
      (run h (opened h c s) (es.map Event.edit)).heap[s.heap.length + 1]? = some p ∧
      (run h (opened h c s) (es.map Event.edit)).heap[s.heap.length + 2]? = some f ∧
      (submitted h c s es).trace =
        (run h (opened h c s) (es.map Event.edit)).trace ++
          [Effect.call c [("user", Value.str u.value), ("pass", Value.str p.value),
            ("force", Value.bool f.checked)] (CallCallback.callback c)]) ∧
    (submitted h c s (es ++ [Edit.setValue s.heap.length uv,
        Edit.setValue (s.heap.length + 1) pv, Edit.setChecked (s.heap.length + 2) fb])).trace =
      (opened h c s).trace ++
        [Effect.call c [("user", Value.str uv), ("pass", Value.str pv),
          ("force", Value.bool fb)] (CallCallback.callback c)] ∧
    (submitted domHost ⟨"foo/bar"⟩ HostState.empty [Edit.setValue 0 "alice",
        Edit.setValue 1 "secret", Edit.setChecked 2 true]).trace =
      (opened domHost ⟨"foo/bar"⟩ HostState.empty).trace ++
        [Effect.call ⟨"foo/bar"⟩ [("user", Value.str "alice"), ("pass", Value.str "secret"),
          ("force", Value.bool true)] (CallCallback.callback ⟨"foo/bar"⟩)] := by
  refine ⟨?_, ?_, rfl⟩
  · obtain ⟨u, hu⟩ := opened_edits_lookup h c s es 0 (by omega)
    obtain ⟨p, hp⟩ := opened_edits_lookup h c s es 1 (by omega)
    obtain ⟨f, hf⟩ := opened_edits_lookup h c s es 2 (by omega)
    have hd : (run h (opened h c s) (es.map Event.edit)).dialog =
        some (resumeDialog c s.heap.length) := by
      rw [run_edits_dialog, opened_eq]
    refine ⟨u, p, f, hu, hp, hf, ?_⟩
    rw [submitted, click_resume h c s.heap.length _ u p f hd hu hp hf]
  · have hd : (run h (opened h c s) ((es ++ [Edit.setValue s.heap.length uv,
        Edit.setValue (s.heap.length + 1) pv,
        Edit.setChecked (s.heap.length + 2) fb]).map Event.edit)).dialog =
        some (resumeDialog c s.heap.length) := by
      rw [run_edits_dialog, opened_eq]
    have ht : (run h (opened h c s) ((es ++ [Edit.setValue s.heap.length uv,
        Edit.setValue (s.heap.length + 1) pv,
        Edit.setChecked (s.heap.length + 2) fb]).map Event.edit)).trace =
        (opened h c s).trace := run_edits_trace _ _ _
    have hlen : s.heap.length + 3 ≤ (run h (opened h c s) (es.map Event.edit)).heap.length := by
      rw [run_edits_length, opened_eq]
      simp
    obtain ⟨u, p, f, hu, huv, hp, hpv, hf, hfb⟩ :=
      three_edits h (run h (opened h c s) (es.map Event.edit)) s.heap.length uv pv fb hlen
    rw [← run_append] at hu hp hf
    have hmap : (es ++ [Edit.setValue s.heap.length uv, Edit.setValue (s.heap.length + 1) pv,
        Edit.setChecked (s.heap.length + 2) fb]).map Event.edit =
        es.map Event.edit ++ [Event.edit (Edit.setValue s.heap.length uv),
          Event.edit (Edit.setValue (s.heap.length + 1) pv),
          Event.edit (Edit.setChecked (s.heap.length + 2) fb)] := by
      simp
    rw [← hmap] at hu hp hf
    rw [submitted, click_resume h c s.heap.length _ u p f hd hu hp hf]
    simp only [ht, huv, hpv, hfb]

/-- C2: on a successful completion the callback of the outbound call performs exactly
three host effects, in this order: it dismisses the dialog, shows one notice whose text
contains the project identifier, and requests navigation to /admin/projects/ followed
by the project identifier verbatim.  This holds for the callback run in any page state
and for the completion of the call a Resume activation issued; for project foo/bar the
navigation target is /admin/projects/foo/bar. -/
theorem completion_dismisses_notifies_navigates (h : Host) (c : Ctx) (s : HostState)
    (es : List Edit) (r : Obj) :
    (∀ t : HostState, (((CallCallback.callback c).run r).run t).2.trace =
      t.trace ++ [Effect.hide c,
        Effect.alert ("Import for project \"" ++ c.project ++ "\" was resumed.\""),
        Effect.go ("/admin/projects/" ++ c.project)]) ∧
    (step h (submitted h c s es) (Event.complete s.pending.length r)).trace =
      (submitted h c s es).trace ++ [Effect.hide c,
        Effect.alert ("Import for project \"" ++ c.project ++ "\" was resumed.\""),
        Effect.go ("/admin/projects/" ++ c.project)] ∧
    Mentions ("Import for project \"" ++ c.project ++ "\" was resumed.\"") c.project ∧
    (step domHost (submitted domHost ⟨"foo/bar"⟩ HostState.empty [])
        (Event.complete 0 r)).trace =
      (submitted domHost ⟨"foo/bar"⟩ HostState.empty []).trace ++
        [Effect.hide ⟨"foo/bar"⟩, Effect.alert "Import for project \"foo/bar\" was resumed.\"",
          Effect.go "/admin/projects/foo/bar"] := by
  refine ⟨fun t => ?_, complete_submitted h c s es r, ⟨_, _, rfl⟩, rfl⟩
  rw [callback_run]

/-- C3: invoking the handler presents exactly one dialog.  The log grows by one `popup`
whose content is the tree of source lines 33-45; the content holds exactly three input
controls, which are the three elements this invocation created (a text field, the same
with type password, and a checkbox), each once and each in a labelled row, exactly one
button, labelled Resume, and one message, which contains the project identifier. -/
theorem invocation_presents_one_dialog (h : Host) (c : Ctx) (s : HostState) :
    ∃ content : Element,
      content = Element.div [
        Element.msg ("Resume import for project \"" ++ c.project ++ "\" ?"),
        Element.br,
        Element.prependLabel "User:" (Element.input s.heap.length),
        Element.br,
        Element.prependLabel "Password:" (Element.input (s.heap.length + 1)),
        Element.br,
        Element.label (Element.input (s.heap.length + 2)) "Force Resume",
        Element.br,
        Element.br,
        Element.button "Resume" (some (ClickHandler.onclick c s.heap.length
          (s.heap.length + 1) (s.heap.length + 2)))] ∧
      (opened h c s).trace = s.trace ++ [Effect.popup c content] ∧
      (opened h c s).dialog = some content ∧
      (opened h c s).heap =
        s.heap ++ [h.textfield, { h.textfield with type := "password" }, h.checkbox] ∧
      content.inputs = [s.heap.length, s.heap.length + 1, s.heap.length + 2] ∧
      content.rows = [("User:", s.heap.length), ("Password:", s.heap.length + 1),
        ("Force Resume", s.heap.length + 2)] ∧
      content.buttons = [("Resume", some (ClickHandler.onclick c s.heap.length
          (s.heap.length + 1) (s.heap.length + 2)))] ∧
      content.messages = ["Resume import for project \"" ++ c.project ++ "\" ?"] ∧
      Mentions ("Resume import for project \"" ++ c.project ++ "\" ?") c.project := by
  refine ⟨resumeDialog c s.heap.length, rfl, ?_, ?_, ?_, rfl, rfl, rfl, rfl, ⟨_, _, rfl⟩⟩
  · rw [opened_eq]
  · rw [opened_eq]
  · rw [opened_eq]

/-- C9: installing the plugin performs exactly one registration with the host, under the
key (project, import.resume) and with `onResumeProjectImport` as the callback.  Loading
changes nothing else: no input is created, no dialog is shown, no call is awaited, and
the log grows by the single effect `onAction`.  Firing that action afterwards runs
`onResumeProjectImport` on the context. -/
theorem install_registers_once (h : Host) (s : HostState) (c : Ctx) :
    (step h s Event.load).trace = s.trace ++
      [Effect.onAction "project" "import.resume" ActionCallback.onResumeProjectImport] ∧
    (step h s Event.load).actions = s.actions ++
      [("project", "import.resume", ActionCallback.onResumeProjectImport)] ∧
    (step h s Event.load).heap = s.heap ∧
    (step h s Event.load).dialog = s.dialog ∧
    (step h s Event.load).pending = s.pending ∧
    (step h HostState.empty Event.load).trace =
      [Effect.onAction "project" "import.resume" ActionCallback.onResumeProjectImport] ∧
    step h (step h HostState.empty Event.load) (Event.action "project" "import.resume" c) =
      opened h c (step h HostState.empty Event.load) :=
  ⟨rfl, rfl, rfl, rfl, rfl, rfl, rfl⟩

/-- C4: no call is made unless the user activates the submit control.  Building and
showing the dialog adds the single effect `popup` to the log and leaves no call
awaiting; and in every run of the page from its initial state, the number of outbound
calls in the log is at most the number of activations of the Resume button so far, so
a run without such an activation logs no call. -/
theorem no_call_without_activation (h : Host) (c : Ctx) (s : HostState) (es : List Event) :
    (opened h c s).trace = s.trace ++ [Effect.popup c (resumeDialog c s.heap.length)] ∧
    (opened h c s).trace.countP Effect.isCall = s.trace.countP Effect.isCall ∧
    (opened h c s).pending = s.pending ∧
    (run h HostState.empty es).trace.countP Effect.isCall ≤ es.countP Event.isResume := by
  refine ⟨?_, ?_, ?_, ?_⟩
  · rw [opened_eq]
  · rw [opened_eq]; simp [Effect.isCall]
  · rw [opened_eq]
  · have := run_calls h es HostState.empty (Or.inl rfl)
    simpa [HostState.empty] using this

/-- C5, counterexample: on the dialog for project foo/bar, two activations of Resume
before any completion leave two calls awaiting their completion callback. -/
theorem two_requests_in_flight :
    (run domHost (opened domHost ⟨"foo/bar"⟩ HostState.empty)
        [Event.click "Resume", Event.click "Resume"]).pending =
      [⟨⟨"foo/bar"⟩, [("user", Value.str ""), ("pass", Value.str ""),
          ("force", Value.bool false)], CallCallback.callback ⟨"foo/bar"⟩⟩,
        ⟨⟨"foo/bar"⟩, [("user", Value.str ""), ("pass", Value.str ""),
          ("force", Value.bool false)], CallCallback.callback ⟨"foo/bar"⟩⟩] ∧
    ¬ (run domHost (opened domHost ⟨"foo/bar"⟩ HostState.empty)
        [Event.click "Resume", Event.click "Resume"]).pending.length ≤ 1 := by
  refine ⟨rfl, ?_⟩
  decide

/-- C5, amended: the handler does not limit the requests in flight.  Every activation
of Resume while the dialog is open issues one more call, so after `k` activations and
no completion the dialog is still open and `k` calls issued from it, all with the same
payload and callback, await their completion. -/
theorem repeated_activations_are_all_in_flight (h : Host) (c : Ctx) (s : HostState)
    (k : Nat) :
    ∃ payload : Obj,
      (run h (opened h c s) (List.replicate k (Event.click "Resume"))).pending =
        s.pending ++ List.replicate k ⟨c, payload, CallCallback.callback c⟩ ∧
      (run h (opened h c s) (List.replicate k (Event.click "Resume"))).trace =
        (opened h c s).trace ++
          List.replicate k (Effect.call c payload (CallCallback.callback c)) ∧
      (run h (opened h c s) (List.replicate k (Event.click "Resume"))).dialog =
        some (resumeDialog c s.heap.length) := by
  obtain ⟨hu, hp, hf⟩ := opened_heap h c s
  have hd : (opened h c s).dialog = some (resumeDialog c s.heap.length) := by
    rw [opened_eq]
  have hpend : (opened h c s).pending = s.pending := by rw [opened_eq]
  refine ⟨[("user", Value.str h.textfield.value), ("pass", Value.str h.textfield.value),
    ("force", Value.bool h.checkbox.checked)], ?_, ?_, ?_⟩
  · rw [run_clicks h c s.heap.length k _ _ _ _ hd hu hp hf, hpend]
  · rw [run_clicks h c s.heap.length k _ _ _ _ hd hu hp hf]
  · rw [run_clicks h c s.heap.length k _ _ _ _ hd hu hp hf]
    exact hd

/-- C6, counterexample: on a host whose checkbox factory returns a checked box, the
fresh dialog for project foo/bar shows the checkbox checked, and submitting without
touching it sends `force` true. -/
theorem checked_factory_sends_force_true :
    (opened ⟨⟨"text", "", false⟩, ⟨"checkbox", "", true⟩⟩ ⟨"foo/bar"⟩
        HostState.empty).heap[2]? = some ⟨"checkbox", "", true⟩ ∧
    (submitted ⟨⟨"text", "", false⟩, ⟨"checkbox", "", true⟩⟩ ⟨"foo/bar"⟩
        HostState.empty []).trace =
      (opened ⟨⟨"text", "", false⟩, ⟨"checkbox", "", true⟩⟩ ⟨"foo/bar"⟩
          HostState.empty).trace ++
        [Effect.call ⟨"foo/bar"⟩ [("user", Value.str ""), ("pass", Value.str ""),
          ("force", Value.bool true)] (CallCallback.callback ⟨"foo/bar"⟩)] :=
  ⟨rfl, rfl⟩

/-- C6, amended: a fresh invocation shows the three controls as the host's factories
returned them; the handler writes nothing but the type of the password field.  The
checkbox has the checked state the checkbox factory gave it and the text fields hold the
value the text field factory gave them, so submitting at once, or after typing into any
fields without touching the checkbox, sends `force` equal to that factory state.  On a
host that creates inputs as the browser does, empty and unchecked, the payload is empty
`user`, empty `pass` and `force` false. -/
theorem fresh_dialog_shows_factory_state (h : Host) (c : Ctx) (s : HostState)
    (vs : List (Ref × String)) :
    (opened h c s).heap[s.heap.length]? = some h.textfield ∧
    (opened h c s).heap[s.heap.length + 1]? = some { h.textfield with type := "password" } ∧
    (opened h c s).heap[s.heap.length + 2]? = some h.checkbox ∧
    (submitted h c s []).trace = (opened h c s).trace ++
      [Effect.call c [("user", Value.str h.textfield.value),
        ("pass", Value.str h.textfield.value),
        ("force", Value.bool h.checkbox.checked)] (CallCallback.callback c)] ∧
    (∃ user pass : Value,
      (submitted h c s (vs.map fun v => Edit.setValue v.1 v.2)).trace =
        (opened h c s).trace ++
          [Effect.call c [("user", user), ("pass", pass),
            ("force", Value.bool h.checkbox.checked)] (CallCallback.callback c)]) ∧
    (submitted domHost c s []).trace = (opened domHost c s).trace ++
      [Effect.call c [("user", Value.str ""), ("pass", Value.str ""),
        ("force", Value.bool false)] (CallCallback.callback c)] := by
  have key : ∀ g : Host, (submitted g c s []).trace = (opened g c s).trace ++
      [Effect.call c [("user", Value.str g.textfield.value),
        ("pass", Value.str g.textfield.value),
        ("force", Value.bool g.checkbox.checked)] (CallCallback.callback c)] := by
    intro g
    obtain ⟨gu, gp, gf⟩ := opened_heap g c s
    have gd : (opened g c s).dialog = some (resumeDialog c s.heap.length) := by
      rw [opened_eq]
    have := click_resume g c s.heap.length (opened g c s) _ _ _ gd gu gp gf
    rw [show submitted g c s [] = step g (opened g c s) (Event.click "Resume") from rfl, this]
  obtain ⟨hu, hp, hf⟩ := opened_heap h c s
  have hd : (opened h c s).dialog = some (resumeDialog c s.heap.length) := by
    rw [opened_eq]
  refine ⟨hu, hp, hf, key h, ?_, key domHost⟩
  obtain ⟨u, hu2⟩ := opened_edits_lookup h c s (vs.map fun v => Edit.setValue v.1 v.2) 0
    (by omega)
  obtain ⟨p, hp2⟩ := opened_edits_lookup h c s (vs.map fun v => Edit.setValue v.1 v.2) 1
    (by omega)
  obtain ⟨f, hf2, hfc⟩ := run_values_checked h vs (opened h c s) (s.heap.length + 2) _ hf
  have hd2 : (run h (opened h c s)
      ((vs.map fun v => Edit.setValue v.1 v.2).map Event.edit)).dialog =
      some (resumeDialog c s.heap.length) := by
    rw [run_edits_dialog]; exact hd
  refine ⟨Value.str u.value, Value.str p.value, ?_⟩
  rw [submitted, click_resume h c s.heap.length _ u p f hd2 hu2 hp2 hf2, run_edits_trace]
  simp [hfc]

/-- C7: the control whose value is sent as `pass` is a masked input.  The invocation
calls `popup` once, and at that call the host renders the second input with type
password already set, next to the first input exactly as the text field factory
returned it.  The click handler of the dialog reads `user` from the first and `pass`
from the second, distinct, input.  Whatever happens on the page afterwards, the second
input keeps type password and the first keeps the type the factory gave it. -/
theorem password_input_is_masked (h : Host) (c : Ctx) (s : HostState) (es : List Event) :
    (opened h c s).presented = s.presented ++ [[(s.heap.length, h.textfield),
      (s.heap.length + 1, { h.textfield with type := "password" }),
      (s.heap.length + 2, h.checkbox)]] ∧
    (opened h c s).trace = s.trace ++ [Effect.popup c (resumeDialog c s.heap.length)] ∧
    (resumeDialog c s.heap.length).buttons = [("Resume", some (ClickHandler.onclick c
      s.heap.length (s.heap.length + 1) (s.heap.length + 2)))] ∧
    (∀ t : HostState,
      ((ClickHandler.onclick c s.heap.length (s.heap.length + 1)
          (s.heap.length + 2)).run.run t).2.trace =
        t.trace ++ [Effect.call c [("user", (getValue s.heap.length t).1),
          ("pass", (getValue (s.heap.length + 1) t).1),
          ("force", (getChecked (s.heap.length + 2) t).1)] (CallCallback.callback c)]) ∧
    s.heap.length ≠ s.heap.length + 1 ∧
    (∃ p : Input, (run h (opened h c s) es).heap[s.heap.length + 1]? = some p ∧
      p.type = "password") ∧
    (∃ u : Input, (run h (opened h c s) es).heap[s.heap.length]? = some u ∧
      u.type = h.textfield.type) := by
  obtain ⟨hu, hp, hf⟩ := opened_heap h c s
  refine ⟨?_, ?_, rfl, fun t => rfl, by omega, ?_, ?_⟩
  · rw [opened_eq]
  · rw [opened_eq]
  · obtain ⟨p, hp2, hpt⟩ := run_type h es (opened h c s) (s.heap.length + 1) _ hp
    exact ⟨p, hp2, hpt⟩
  · obtain ⟨u, hu2, hut⟩ := run_type h es (opened h c s) s.heap.length _ hu
    exact ⟨u, hu2, hut⟩

/-- C8: a failed call triggers none of the post-success effects.  When the host drops
an awaited call, no function of the script runs: the log, the inputs and the dialog
stay as they are, and after the failure of a submitted call the dialog is still on
display with no call left awaiting.  In every run of the page the number of dismissals,
notices and navigation requests in the log grows by at most three per successful
completion, so a run without a successful completion adds none. -/
theorem failed_call_has_no_post_success_effects (h : Host) (c : Ctx) (s : HostState)
    (es : List Edit) (i : Nat) (fs : List Event) :
    (step h s (Event.fail i)).trace = s.trace ∧
    (step h s (Event.fail i)).dialog = s.dialog ∧
    (step h s (Event.fail i)).heap = s.heap ∧
    (step h (submitted h c s es) (Event.fail s.pending.length)).pending = s.pending ∧
    (step h (submitted h c s es) (Event.fail s.pending.length)).dialog =
      some (resumeDialog c s.heap.length) ∧
    (step h (submitted h c s es) (Event.fail s.pending.length)).trace =
      (submitted h c s es).trace ∧
    (run h s fs).trace.countP Effect.isPostSuccess ≤
      s.trace.countP Effect.isPostSuccess + 3 * fs.countP Event.isComplete := by
  obtain ⟨payload, hs⟩ := submitted_eq h c s es
  refine ⟨rfl, rfl, rfl, ?_, ?_, rfl, run_post h fs s⟩
  · rw [hs]
    show (s.pending ++ [_]).eraseIdx s.pending.length = s.pending
    rw [List.eraseIdx_append_of_length_le (Nat.le_refl _)]
    simp
  · rw [hs]
    show (run h (opened h c s) (es.map Event.edit)).dialog = _
    rw [run_edits_dialog, opened_eq]

/-- C10: the post-success effects are a function of the project identifier alone.  Take
two runs for the same project, on any two hosts and pages, with any edits of the inputs
before submitting and any two responses: the effects the completion adds to the log are
the same in both, namely the dismissal, the notice built from the project and the
navigation to the path built from the project.  Neither the response nor the submitted
user, password or force value reaches them. -/
theorem post_success_effects_depend_on_project_only (h h2 : Host) (project : String)
    (s s2 : HostState) (es es2 : List Edit) (r r2 : Obj) :
    (step h (submitted h ⟨project⟩ s es) (Event.complete s.pending.length r)).trace.drop
        (submitted h ⟨project⟩ s es).trace.length =
      (step h2 (submitted h2 ⟨project⟩ s2 es2) (Event.complete s2.pending.length r2)).trace.drop
        (submitted h2 ⟨project⟩ s2 es2).trace.length ∧
    (step h (submitted h ⟨project⟩ s es) (Event.complete s.pending.length r)).trace.drop
        (submitted h ⟨project⟩ s es).trace.length =
      [Effect.hide ⟨project⟩,
        Effect.alert ("Import for project \"" ++ project ++ "\" was resumed.\""),
        Effect.go ("/admin/projects/" ++ project)] := by
  rw [complete_submitted h ⟨project⟩ s es r, complete_submitted h2 ⟨project⟩ s2 es2 r2]
  simp

end ResumeProjectImport
